import Mathlib

/-!
Verification of the branching-chat core: data model, fork engine,
message-store queries, deletion semantics, and the streaming relay of the
send route.  Every definition is a shallow embedding of the corresponding
TypeScript source (features/chat/service.ts, features/chat/repository.ts,
features/chat/errors.ts, the send route, the fork route, and the table
definitions of scripts/setup-db.ts).  Identifiers are Nat stand-ins for
uuids and timestamps.
-/

/-- Row of the chat_conversations table (scripts/setup-db.ts): id,
title, nullable lineage links, timestamps. -/
structure Conversation where
  id : Nat
  title : String
  parentConversationId : Option Nat
  branchFromMessageId : Option Nat
  createdAt : Nat
  updatedAt : Nat
deriving DecidableEq, Repr

/-- Row of the chat_messages table (scripts/setup-db.ts): id, owning
conversation, role, content, created_at. -/
structure Message where
  id : Nat
  conversationId : Nat
  role : String
  content : String
  createdAt : Nat
deriving DecidableEq, Repr

/-- The relational store.  The list order of `messages` models the
backend's physical row enumeration order (what a SELECT without a fully
determining ORDER BY falls back to for tied keys); `nextId` models
gen_random_uuid() freshness, `now` models the DEFAULT now() timestamp the
store assigns on insert. -/
structure Store where
  conversations : List Conversation
  messages : List Message
  nextId : Nat
  now : Nat
deriving DecidableEq, Repr

/-- The ordering key used by ORDER BY asc(messages.createdAt). -/
def msgLe (a b : Message) : Prop := a.createdAt ≤ b.createdAt

instance : DecidableRel msgLe := fun a b => Nat.decLe a.createdAt b.createdAt

instance : IsTotal Message msgLe := ⟨fun a b => Nat.le_total a.createdAt b.createdAt⟩

instance : IsTrans Message msgLe := ⟨fun _ _ _ h1 h2 => Nat.le_trans h1 h2⟩

/-- repository.findConversationById: SELECT ... WHERE id = ? LIMIT 1. -/
def findConversationById (s : Store) (id : Nat) : Option Conversation :=
  s.conversations.find? (fun c => c.id == id)

/-- repository.findMessageById: SELECT ... WHERE id = ? LIMIT 1. -/
def findMessageById (s : Store) (id : Nat) : Option Message :=
  s.messages.find? (fun m => m.id == id)

/-- repository.findMessagesByConversationId: WHERE conversationId = ?
ORDER BY asc(createdAt).  A stable sort over the backend's row order
models the SQL sort, which is only determined up to ties on createdAt. -/
def findMessagesByConversationId (s : Store) (cid : Nat) : List Message :=
  List.insertionSort msgLe (s.messages.filter (fun m => m.conversationId == cid))

/-- repository.findMessagesUpToId: WHERE conversationId = ? AND
createdAt <= cutoff ORDER BY asc(createdAt) — note: no id tie-break in
the source. -/
def findMessagesUpToId (s : Store) (cid : Nat) (cutoff : Nat) : List Message :=
  List.insertionSort msgLe
    (s.messages.filter (fun m => m.conversationId == cid && decide (m.createdAt ≤ cutoff)))

/-- The conversation row an INSERT builds: fresh id, store-assigned
timestamps. -/
def mkConversationRow (s : Store) (title : String) (parent bfm : Option Nat) : Conversation :=
  ⟨s.nextId, title, parent, bfm, s.now, s.now⟩

/-- db.insert(conversations).values(...).returning(). -/
def insertConversation (s : Store) (title : String) (parent bfm : Option Nat) :
    Conversation × Store :=
  (mkConversationRow s title parent bfm,
   { s with conversations := s.conversations ++ [mkConversationRow s title parent bfm],
            nextId := s.nextId + 1 })

/-- The message row an INSERT builds: fresh id, store-assigned createdAt. -/
def mkMessageRow (s : Store) (cid : Nat) (role content : String) : Message :=
  ⟨s.nextId, cid, role, content, s.now⟩

/-- db.insert(messages).values(...).returning(). -/
def insertMessage (s : Store) (cid : Nat) (role content : String) : Message × Store :=
  (mkMessageRow s cid role content,
   { s with messages := s.messages ++ [mkMessageRow s cid role content],
            nextId := s.nextId + 1 })

/-- A bulk INSERT of (role, content) rows into one conversation, as done
by repository.createConversationWithMessages; every row gets its own
fresh id but the same store-assigned createdAt. -/
def insertMessages (s : Store) (cid : Nat) : List (String × String) → Store
  | [] => s
  | rc :: rest => insertMessages (insertMessage s cid rc.1 rc.2).2 cid rest

/-- The rows a bulk INSERT starting at id n with timestamp now produces. -/
def copiesOf (n now cid : Nat) : List (String × String) → List Message
  | [] => []
  | rc :: rest => ⟨n, cid, rc.1, rc.2, now⟩ :: copiesOf (n + 1) now cid rest

/-- features/chat/errors.ts: a chat error carries a machine-readable
code and an HTTP status. -/
structure ChatError where
  code : String
  statusCode : Nat
  message : String
deriving DecidableEq, Repr

/-- errors.ts ConversationNotFoundError: CONVERSATION_NOT_FOUND, 404. -/
def conversationNotFoundError (id : Nat) : ChatError :=
  ⟨"CONVERSATION_NOT_FOUND", 404, "Conversation not found: " ++ toString id⟩

/-- errors.ts MessageNotFoundError: MESSAGE_NOT_FOUND, 404. -/
def messageNotFoundError (id : Nat) : ChatError :=
  ⟨"MESSAGE_NOT_FOUND", 404, "Message not found: " ++ toString id⟩

/-- errors.ts MessageNotInConversationError: MESSAGE_NOT_IN_CONVERSATION, 400. -/
def messageNotInConversationError (messageId conversationId : Nat) : ChatError :=
  ⟨"MESSAGE_NOT_IN_CONVERSATION", 400,
    "Message " ++ toString messageId ++ " does not belong to conversation "
      ++ toString conversationId⟩

/-- Errors escaping forkConversation: either a ChatError thrown by the
service validation or a plain database error. -/
inductive ForkError where
  | chat (e : ChatError)
  | db (message : String)
deriving DecidableEq, Repr

/-- Fault oracle for the store collaborator: which of the two INSERT
statements of createConversationWithMessages the database rejects. -/
structure DbFault where
  conversationInsertFails : Bool
  messageInsertFails : Bool
deriving DecidableEq, Repr

/-- The fault-free database. -/
def noFault : DbFault := ⟨false, false⟩

/-- Char-list matching at the head (JS String.prototype.includes helper). -/
def leadMatch : List Char → List Char → Bool
  | [], _ => true
  | _ :: _, [] => false
  | a :: as, b :: bs => a == b && leadMatch as bs

/-- Substring occurrence anywhere in a char list. -/
def hasSub (pat : List Char) : List Char → Bool
  | [] => leadMatch pat []
  | b :: bs => leadMatch pat (b :: bs) || hasSub pat bs

/-- JS s.includes(pat). -/
def strIncludes (s pat : String) : Bool := hasSub pat.data s.data

/-- service.ts forkConversation branch-title derivation:
sourceConversation.title.includes("(branch)") ? title : title + " (branch)". -/
def branchTitle (title : String) : String :=
  if strIncludes title "(branch)" then title else title ++ " (branch)"

/-- service.ts generateTitleFromMessage: trim; keep if at most 50 chars,
else truncate to 50 chars and append an ellipsis. -/
def generateTitleFromMessage (content : String) : String :=
  if content.trim.length ≤ 50 then content.trim else content.trim.take 50 ++ "..."

/-- repository.createConversationWithMessages: INSERT the conversation
row, then (when the prefix is non-empty) bulk-INSERT the copied
messages.  The two statements are issued separately with no enclosing
transaction, so a failure of the second leaves the first persisted: the
error carries the store as it stands when the operation aborts. -/
def createConversationWithMessages (flt : DbFault) (s : Store) (title : String)
    (parent bfm : Option Nat) (toCopy : List (String × String)) :
    Except (String × Store) (Conversation × Store) :=
  if flt.conversationInsertFails then
    Except.error ("Failed to create conversation", s)
  else
    let conv := (insertConversation s title parent bfm).1
    let s1 := (insertConversation s title parent bfm).2
    if toCopy.length > 0 then
      if flt.messageInsertFails then
        Except.error ("insert into chat_messages failed", s1)
      else
        Except.ok (conv, insertMessages s1 conv.id toCopy)
    else
      Except.ok (conv, s1)

/-- service.ts forkConversation: validate source conversation, cutoff
message, and ownership, in that order; select the prefix with
findMessagesUpToId at the cutoff message's createdAt; derive the branch
title; create the branch with the copied (role, content) pairs.  Errors
carry the store state at the point of failure. -/
def forkConversation (flt : DbFault) (s : Store) (cid mid : Nat) :
    Except (ForkError × Store) (Conversation × Store) :=
  match findConversationById s cid with
  | none => Except.error (ForkError.chat (conversationNotFoundError cid), s)
  | some src =>
    match findMessageById s mid with
    | none => Except.error (ForkError.chat (messageNotFoundError mid), s)
    | some fm =>
      if fm.conversationId != cid then
        Except.error (ForkError.chat (messageNotInConversationError mid cid), s)
      else
        match createConversationWithMessages flt s (branchTitle src.title)
            (some cid) (some mid)
            ((findMessagesUpToId s cid fm.createdAt).map (fun m => (m.role, m.content))) with
        | Except.error es => Except.error (ForkError.db es.1, es.2)
        | Except.ok cs => Except.ok cs

/-- DELETE FROM chat_conversations WHERE id = ?, with the foreign-key
semantics declared in scripts/setup-db.ts: the conversation's own
messages are removed (chat_messages.conversation_id ON DELETE CASCADE);
surviving conversations whose parent_conversation_id referenced the
deleted row get NULL there (ON DELETE SET NULL); surviving conversations
whose branch_from_message_id referenced one of the cascade-deleted
messages get NULL there too (ON DELETE SET NULL on the message link). -/
def deleteConversationRows (s : Store) (cid : Nat) : Store :=
  { s with
    conversations :=
      (s.conversations.filter (fun c => c.id != cid)).map (fun c =>
        { c with
          parentConversationId :=
            if c.parentConversationId == some cid then none else c.parentConversationId,
          branchFromMessageId :=
            match c.branchFromMessageId with
            | some m =>
              if ((s.messages.filter (fun x => x.conversationId == cid)).map Message.id).contains m
              then none else some m
            | none => none }),
    messages := s.messages.filter (fun m => m.conversationId != cid) }

/-- service.ts deleteConversation: repository delete, throwing
ConversationNotFoundError when no row was deleted. -/
def deleteConversation (s : Store) (cid : Nat) : Except ChatError Store :=
  if s.conversations.any (fun c => c.id == cid) then
    Except.ok (deleteConversationRows s cid)
  else
    Except.error (conversationNotFoundError cid)

/-- Modelled from the spec: whether the upstream text-generation stream
ran to completion or failed mid-stream (the stream.ts collaborator is
not part of the analysed sources; §6 of the spec gives its contract). -/
inductive ProviderOutcome where
  | completed
  | failed (message : String)
deriving DecidableEq, Repr

/-- Modelled from the spec: the provider collaborator hands back an
incrementally readable stream of chunks and a future resolving to the
full concatenated text on completion, or rejecting on failure.  In
either case the chunks already produced have been delivered before the
stream signals its end. -/
structure ProviderStream where
  emitted : List String
  outcome : ProviderOutcome
deriving DecidableEq, Repr

/-- A client-visible SSE frame of the send route: a forwarded chunk, the
terminal done frame (type done, saved flag), or the terminal error frame
(type error, message). -/
inductive Frame where
  | chunk (data : String)
  | done (saved : Bool)
  | errorFrame (message : String)
deriving DecidableEq, Repr

/-- The send route's wrappedStream: forward every upstream chunk
verbatim; when the upstream reader reports done, await the full text and
persist one assistant message, then enqueue the done frame; if awaiting
the full text or the save throws, enqueue the error frame instead (both
failure paths share one catch block and one frame).  Returns the frames
the client receives and the resulting store. -/
def relayRun (s : Store) (cid : Nat) (p : ProviderStream) (saveFails : Bool) :
    List Frame × Store :=
  match p.outcome with
  | ProviderOutcome.failed _ =>
    (p.emitted.map Frame.chunk ++ [Frame.errorFrame "Failed to save response"], s)
  | ProviderOutcome.completed =>
    if saveFails then
      (p.emitted.map Frame.chunk ++ [Frame.errorFrame "Failed to save response"], s)
    else
      (p.emitted.map Frame.chunk ++ [Frame.done true],
       (insertMessage s cid "assistant" (String.join p.emitted)).2)

/-- Result of one POST /api/chat/send request: the frames streamed to
the client, the final store, and the history that was handed to the
text-generation provider. -/
structure SendResult where
  frames : List Frame
  store : Store
  historySent : List Message
deriving Repr

/-- The send route POST handler: create the conversation when none was
given, append the user message, read back the history, hand it to the
provider, and relay the provider stream. -/
def sendPOST (s : Store) (cido : Option Nat) (content : String)
    (provider : List Message → ProviderStream) (saveFails : Bool) : SendResult :=
  let s1 := match cido with
    | some _ => s
    | none => (insertConversation s (generateTitleFromMessage content) none none).2
  let cid := match cido with
    | some c => c
    | none => (insertConversation s (generateTitleFromMessage content) none none).1.id
  let s2 := (insertMessage s1 cid "user" content).2
  let history := findMessagesByConversationId s2 cid
  ⟨(relayRun s2 cid (provider history) saveFails).1,
   (relayRun s2 cid (provider history) saveFails).2,
   history⟩

/-! Helper lemmas: a stable sort commutes with filtering, so the
prefix query is literally a filtered form of the full-conversation
query. -/

/-- Inserting an element that is below the whole list puts it in front. -/
theorem orderedInsert_eq_cons {α : Type} (r : α → α → Prop) [DecidableRel r] (a : α) :
    ∀ L : List α, (∀ x ∈ L, r a x) → List.orderedInsert r a L = a :: L := by
  intro L h
  cases L with
  | nil => rfl
  | cons b L => simp [List.orderedInsert, if_pos (h b (by simp))]

/-- Filtering past an ordered insert of a kept element, on a sorted list. -/
theorem filter_orderedInsert_pos {α : Type} (r : α → α → Prop) [DecidableRel r]
    [IsTrans α r] (q : α → Bool) (a : α) (ha : q a = true) :
    ∀ L : List α, List.Sorted r L →
      (List.orderedInsert r a L).filter q = List.orderedInsert r a (L.filter q) := by
  intro L
  induction L with
  | nil => intro _; simp [List.orderedInsert, List.filter, ha]
  | cons b L ih =>
    intro hs
    have hsL : List.Sorted r L := (List.sorted_cons.mp hs).2
    have hrel : ∀ x ∈ L, r b x := (List.sorted_cons.mp hs).1
    by_cases hab : r a b
    · rw [List.orderedInsert, if_pos hab]
      by_cases hqb : q b = true
      · simp [List.filter_cons, ha, hqb, List.orderedInsert, if_pos hab]
      · have hall : ∀ x ∈ L.filter q, r a x := by
          intro x hx
          exact IsTrans.trans a b x hab (hrel x (List.mem_of_mem_filter hx))
        simp only [List.filter_cons, ha, if_pos, hqb]
        simp only [Bool.false_eq_true, if_false]
        rw [orderedInsert_eq_cons r a (L.filter q) hall]
    · rw [List.orderedInsert, if_neg hab]
      by_cases hqb : q b = true
      · simp only [List.filter_cons, hqb, if_pos]
        rw [ih hsL]
        rw [List.orderedInsert, if_neg hab]
      · simp only [List.filter_cons, hqb, Bool.false_eq_true, if_false]
        exact ih hsL

/-- Filtering past an ordered insert of a dropped element. -/
theorem filter_orderedInsert_neg {α : Type} (r : α → α → Prop) [DecidableRel r]
    (q : α → Bool) (a : α) (ha : q a = false) :
    ∀ L : List α, (List.orderedInsert r a L).filter q = L.filter q := by
  intro L
  induction L with
  | nil => simp [List.orderedInsert, List.filter, ha]
  | cons b L ih =>
    by_cases hab : r a b
    · rw [List.orderedInsert, if_pos hab]
      simp [List.filter_cons, ha]
    · rw [List.orderedInsert, if_neg hab]
      simp [List.filter_cons, ih]

/-- The stable insertion sort commutes with filter. -/
theorem insertionSort_filter {α : Type} (r : α → α → Prop) [DecidableRel r]
    [IsTotal α r] [IsTrans α r] (q : α → Bool) :
    ∀ l : List α, List.insertionSort r (l.filter q) = (List.insertionSort r l).filter q := by
  intro l
  induction l with
  | nil => rfl
  | cons a l ih =>
    by_cases hqa : q a = true
    · rw [List.filter_cons_of_pos hqa]
      rw [List.insertionSort, List.insertionSort, ih]
      rw [filter_orderedInsert_pos r q a hqa _ (List.sorted_insertionSort r l)]
    · have hqa' : q a = false := by
        cases h : q a with
        | false => rfl
        | true => exact absurd h hqa
      rw [List.filter_cons_of_neg (by simp [hqa'])]
      rw [List.insertionSort, ih]
      rw [filter_orderedInsert_neg r q a hqa']

/-- Two chained filters collapse to the conjunction. -/
theorem filter_and {α : Type} (p q : α → Bool) :
    ∀ l : List α, (l.filter p).filter q = l.filter (fun x => p x && q x) := by
  intro l
  induction l with
  | nil => rfl
  | cons a l ih =>
    by_cases hp : p a = true
    · by_cases hq : q a = true
      · simp [List.filter_cons, hp, hq, ih]
      · simp [List.filter_cons, hp, hq, ih]
    · simp [List.filter_cons, hp, ih]

/-- The prefix query of the repository is the ordered full-conversation
query filtered at the cutoff: the copied prefix preserves the relative
order of the source conversation. -/
theorem findMessagesUpToId_eq (s : Store) (cid cutoff : Nat) :
    findMessagesUpToId s cid cutoff
      = (findMessagesByConversationId s cid).filter
          (fun m => decide (m.createdAt ≤ cutoff)) := by
  unfold findMessagesUpToId findMessagesByConversationId
  rw [← insertionSort_filter msgLe (fun m => decide (m.createdAt ≤ cutoff))]
  rw [filter_and]

/-- The bulk insert appends exactly the copy rows, ids counting up from
the store's fresh id, one shared timestamp. -/
theorem insertMessages_messages (cid : Nat) :
    ∀ (l : List (String × String)) (s : Store),
      (insertMessages s cid l).messages = s.messages ++ copiesOf s.nextId s.now cid l := by
  intro l
  induction l with
  | nil => intro s; simp [insertMessages, copiesOf]
  | cons rc rest ih =>
    intro s
    rw [insertMessages]
    rw [ih]
    simp [insertMessage, mkMessageRow, copiesOf]

/-- Every row of a bulk copy carries the target conversation id and an
id at least the starting fresh id. -/
theorem copiesOf_mem (cid : Nat) :
    ∀ (l : List (String × String)) (n now : Nat), ∀ x ∈ copiesOf n now cid l,
      n ≤ x.id ∧ x.conversationId = cid := by
  intro l
  induction l with
  | nil => intro n now x hx; simp [copiesOf] at hx
  | cons rc rest ih =>
    intro n now x hx
    rw [copiesOf] at hx
    rcases List.mem_cons.mp hx with h | h
    · subst h; exact ⟨Nat.le_refl _, rfl⟩
    · have h2 := ih (n + 1) now x h
      exact ⟨Nat.le_trans (Nat.le_succ n) h2.1, h2.2⟩

/-- The copy rows reproduce the supplied (role, content) pairs verbatim
and in order. -/
theorem copiesOf_map_payload (cid : Nat) :
    ∀ (l : List (String × String)) (n now : Nat),
      (copiesOf n now cid l).map (fun m => (m.role, m.content)) = l := by
  intro l
  induction l with
  | nil => intro n now; rfl
  | cons rc rest ih => intro n now; simp [copiesOf, ih (n + 1) now]

/-- A message of the store that belongs to the conversation shows up in
the ordered conversation query. -/
theorem mem_findMessagesByConversationId (s : Store) (cid : Nat) (m : Message)
    (h1 : m ∈ s.messages) (h2 : m.conversationId = cid) :
    m ∈ findMessagesByConversationId s cid := by
  unfold findMessagesByConversationId
  exact (List.perm_insertionSort msgLe _).mem_iff.mpr
    (List.mem_filter.mpr ⟨h1, by simp [h2]⟩)

/-- The relay only ever appends to the message log. -/
theorem relayRun_messages (s : Store) (cid : Nat) (p : ProviderStream) (sf : Bool) :
    ∃ tail, (relayRun s cid p sf).2.messages = s.messages ++ tail := by
  unfold relayRun
  cases p.outcome with
  | failed msg => exact ⟨[], by simp⟩
  | completed =>
    cases sf with
    | true => exact ⟨[], by simp⟩
    | false => exact ⟨[mkMessageRow s cid "assistant" (String.join p.emitted)], by simp [insertMessage]⟩

/-- C8: branch-title derivation is idempotent: a title that already ends
in the branch marker is left unchanged by a fork, and forking a fork
never accumulates a second marker. -/
theorem c8_branch_title_idempotent :
    (∀ t : String, branchTitle (t ++ " (branch)") = t ++ " (branch)")
    ∧ (∀ t : String, branchTitle (branchTitle t) = branchTitle t) := by
  have hsubApp : ∀ (pat ys : List Char), hasSub pat ys = true →
      ∀ xs : List Char, hasSub pat (xs ++ ys) = true := by
    intro pat ys h xs
    induction xs with
    | nil => simpa using h
    | cons x xs ih => simp [hasSub, ih]
  have hmark : ∀ t : String, strIncludes (t ++ " (branch)") "(branch)" = true := by
    intro t
    unfold strIncludes
    rw [String.data_append]
    exact hsubApp _ _ (by decide) t.data
  constructor
  · intro t
    unfold branchTitle
    rw [hmark t]
    simp
  · intro t
    unfold branchTitle
    by_cases h : strIncludes t "(branch)" = true
    · simp [h]
    · have h' : strIncludes t "(branch)" = false := by
        cases hb : strIncludes t "(branch)" with
        | false => rfl
        | true => exact absurd hb h
      simp only [h', Bool.false_eq_true, if_false]
      rw [hmark t]
      simp

/-- C4: the fork validates source conversation, cutoff message and
ownership in this order, failing with CONVERSATION_NOT_FOUND 404,
MESSAGE_NOT_FOUND 404 or MESSAGE_NOT_IN_CONVERSATION 400 respectively,
and every validation failure leaves the store untouched. -/
theorem c4_fork_validation_order (flt : DbFault) (s : Store) (cid mid : Nat) :
    (findConversationById s cid = none →
      forkConversation flt s cid mid
        = Except.error (ForkError.chat (conversationNotFoundError cid), s))
    ∧ (∀ src, findConversationById s cid = some src → findMessageById s mid = none →
      forkConversation flt s cid mid
        = Except.error (ForkError.chat (messageNotFoundError mid), s))
    ∧ (∀ src fm, findConversationById s cid = some src → findMessageById s mid = some fm →
      fm.conversationId ≠ cid →
      forkConversation flt s cid mid
        = Except.error (ForkError.chat (messageNotInConversationError mid cid), s))
    ∧ (conversationNotFoundError cid).statusCode = 404
    ∧ (messageNotFoundError mid).statusCode = 404
    ∧ (messageNotInConversationError mid cid).statusCode = 400 := by
  refine ⟨?_, ?_, ?_, rfl, rfl, rfl⟩
  · intro h
    unfold forkConversation
    rw [h]
  · intro src h1 h2
    unfold forkConversation
    rw [h1, h2]
  · intro src fm h1 h2 h3
    unfold forkConversation
    rw [h1, h2]
    have hbne : (fm.conversationId != cid) = true := by simp [h3]
    simp [hbne]

/-- Witness for C4 at a concrete store with no conversations. -/
theorem c4_fork_validation_order_witness :
    forkConversation noFault ⟨[], [], 0, 0⟩ 1 2
      = Except.error (ForkError.chat (conversationNotFoundError 1), ⟨[], [], 0, 0⟩) :=
  (c4_fork_validation_order noFault ⟨[], [], 0, 0⟩ 1 2).1 rfl

/-- C2 evidence: forking is not atomic.  With a database that accepts
the conversation INSERT but rejects the bulk message INSERT, the fork
fails yet the branch conversation row stays persisted with zero
messages — exactly the state the claim rules out. -/
theorem c2_fork_not_atomic :
    forkConversation ⟨false, true⟩
        ⟨[⟨1, "Story", none, none, 0, 0⟩], [⟨10, 1, "user", "hi", 5⟩], 20, 9⟩ 1 10
      = Except.error (ForkError.db "insert into chat_messages failed",
          ⟨[⟨1, "Story", none, none, 0, 0⟩, ⟨20, "Story (branch)", some 1, some 10, 9, 9⟩],
           [⟨10, 1, "user", "hi", 5⟩], 21, 9⟩) := by
  rfl

/-- Fault-free fork on validated inputs with a non-empty prefix reduces
to the conversation insert followed by the bulk copy insert. -/
theorem forkConversation_ok
    (s : Store) (cid mid : Nat) (src : Conversation) (fm : Message)
    (hs : findConversationById s cid = some src)
    (hm : findMessageById s mid = some fm)
    (hbne : (fm.conversationId != cid) = false)
    (hlen : ((findMessagesUpToId s cid fm.createdAt).map
        (fun m => (m.role, m.content))).length > 0) :
    forkConversation noFault s cid mid
      = Except.ok (mkConversationRow s (branchTitle src.title) (some cid) (some mid),
          insertMessages
            (insertConversation s (branchTitle src.title) (some cid) (some mid)).2
            s.nextId
            ((findMessagesUpToId s cid fm.createdAt).map (fun m => (m.role, m.content)))) := by
  unfold forkConversation
  rw [hs, hm]
  simp only [hbne, Bool.false_eq_true, if_false]
  unfold createConversationWithMessages
  simp only [noFault, Bool.false_eq_true, if_false, if_pos hlen]
  simp [insertConversation, mkConversationRow]

/-- C1: forking a conversation at one of its own messages yields a new
conversation whose message log is a copy of exactly the source messages
with createdAt up to and including the cutoff message's, in the source's
ascending order, with role and content verbatim, fresh ids, and the new
conversation's id as owner; the cutoff message itself is part of the
copied prefix. -/
theorem c1_fork_copies_prefix
    (s : Store) (cid mid : Nat) (src : Conversation) (fm : Message)
    (hWFm : ∀ m ∈ s.messages, m.id < s.nextId)
    (hWFc : ∀ c ∈ s.conversations, c.id < s.nextId)
    (hs : findConversationById s cid = some src)
    (hm : findMessageById s mid = some fm)
    (hb : fm.conversationId = cid) :
    ∃ conv copies s',
      forkConversation noFault s cid mid = Except.ok (conv, s')
      ∧ s'.messages = s.messages ++ copies
      ∧ copies.map (fun m => (m.role, m.content))
          = ((findMessagesByConversationId s cid).filter
              (fun m => decide (m.createdAt ≤ fm.createdAt))).map
              (fun m => (m.role, m.content))
      ∧ (∀ c ∈ copies, c.conversationId = conv.id)
      ∧ (∀ c ∈ copies, ∀ m0 ∈ s.messages, c.id ≠ m0.id)
      ∧ (∀ c0 ∈ s.conversations, conv.id ≠ c0.id)
      ∧ fm ∈ (findMessagesByConversationId s cid).filter
              (fun m => decide (m.createdAt ≤ fm.createdAt)) := by
  have hm' : s.messages.find? (fun m => m.id == mid) = some fm := hm
  have hfm_mem : fm ∈ s.messages := List.mem_of_find?_eq_some hm'
  have hfm_pfx : fm ∈ (findMessagesByConversationId s cid).filter
      (fun m => decide (m.createdAt ≤ fm.createdAt)) :=
    List.mem_filter.mpr ⟨mem_findMessagesByConversationId s cid fm hfm_mem hb, by simp⟩
  have hfm_toCopy : fm ∈ findMessagesUpToId s cid fm.createdAt := by
    rw [findMessagesUpToId_eq]
    exact hfm_pfx
  have hlen : ((findMessagesUpToId s cid fm.createdAt).map
      (fun m => (m.role, m.content))).length > 0 := by
    rw [List.length_map]
    exact List.length_pos.mpr (List.ne_nil_of_mem hfm_toCopy)
  have hbne : (fm.conversationId != cid) = false := by simp [hb]
  refine ⟨mkConversationRow s (branchTitle src.title) (some cid) (some mid),
    copiesOf (s.nextId + 1) s.now s.nextId
      ((findMessagesUpToId s cid fm.createdAt).map (fun m => (m.role, m.content))),
    insertMessages
      (insertConversation s (branchTitle src.title) (some cid) (some mid)).2
      s.nextId
      ((findMessagesUpToId s cid fm.createdAt).map (fun m => (m.role, m.content))),
    forkConversation_ok s cid mid src fm hs hm hbne hlen, ?_, ?_, ?_, ?_, ?_, hfm_pfx⟩
  · rw [insertMessages_messages]
    simp [insertConversation]
  · rw [copiesOf_map_payload]
    rw [findMessagesUpToId_eq]
  · intro c hc
    exact (copiesOf_mem s.nextId _ _ _ c hc).2
  · intro c hc m0 hm0
    have h1 := (copiesOf_mem s.nextId _ _ _ c hc).1
    have h2 := hWFm m0 hm0
    omega
  · intro c0 hc0
    have h2 := hWFc c0 hc0
    simp only [mkConversationRow]
    omega

/-- Concrete source store for the C1 witness: conversation "Mystery"
with three messages. -/
def c1store : Store :=
  ⟨[⟨1, "Mystery", none, none, 0, 0⟩],
   [⟨10, 1, "user", "u1", 1⟩, ⟨11, 1, "assistant", "a1", 2⟩, ⟨12, 1, "user", "u2", 3⟩],
   20, 9⟩

/-- Witness for C1: forking "Mystery" at its second message. -/
theorem c1_fork_copies_prefix_witness :
    ∃ conv copies s',
      forkConversation noFault c1store 1 11 = Except.ok (conv, s')
      ∧ s'.messages = c1store.messages ++ copies
      ∧ copies.map (fun m => (m.role, m.content))
          = ((findMessagesByConversationId c1store 1).filter
              (fun m => decide (m.createdAt ≤ 2))).map (fun m => (m.role, m.content))
      ∧ (∀ c ∈ copies, c.conversationId = conv.id)
      ∧ (∀ c ∈ copies, ∀ m0 ∈ c1store.messages, c.id ≠ m0.id)
      ∧ (∀ c0 ∈ c1store.conversations, conv.id ≠ c0.id)
      ∧ (⟨11, 1, "assistant", "a1", 2⟩ : Message)
          ∈ (findMessagesByConversationId c1store 1).filter
              (fun m => decide (m.createdAt ≤ 2)) :=
  c1_fork_copies_prefix c1store 1 11 ⟨1, "Mystery", none, none, 0, 0⟩
    ⟨11, 1, "assistant", "a1", 2⟩ (by decide) (by decide) rfl rfl rfl

/-- C7 evidence: the prefix query has no id tie-break.  Two stores that
hold the same set of message rows — differing only in the backend's
physical enumeration order, which ORDER BY createdAt alone does not
determine for tied timestamps — give different ordered results for the
same arguments. -/
theorem c7_range_up_to_no_tie_break :
    (Store.messages ⟨[⟨1, "t", none, none, 0, 0⟩],
        [⟨10, 1, "user", "a", 5⟩, ⟨11, 1, "user", "b", 5⟩], 20, 9⟩).Perm
      (Store.messages ⟨[⟨1, "t", none, none, 0, 0⟩],
        [⟨11, 1, "user", "b", 5⟩, ⟨10, 1, "user", "a", 5⟩], 20, 9⟩)
    ∧ findMessagesUpToId ⟨[⟨1, "t", none, none, 0, 0⟩],
        [⟨10, 1, "user", "a", 5⟩, ⟨11, 1, "user", "b", 5⟩], 20, 9⟩ 1 5
      ≠ findMessagesUpToId ⟨[⟨1, "t", none, none, 0, 0⟩],
        [⟨11, 1, "user", "b", 5⟩, ⟨10, 1, "user", "a", 5⟩], 20, 9⟩ 1 5 := by
  constructor
  · decide
  · decide

/-- C3: when the provider stream completes and the save succeeds, the
client receives every chunk verbatim in provider order followed by the
single done frame with the saved flag, and exactly one assistant-role
message holding the full accumulated text is appended to the
conversation's log. -/
theorem c3_relay_success (s : Store) (cid : Nat) (p : ProviderStream)
    (h : p.outcome = ProviderOutcome.completed) :
    relayRun s cid p false
      = (p.emitted.map Frame.chunk ++ [Frame.done true],
         { s with
            messages := s.messages
              ++ [⟨s.nextId, cid, "assistant", String.join p.emitted, s.now⟩],
            nextId := s.nextId + 1 }) := by
  unfold relayRun
  rw [h]
  simp [insertMessage, mkMessageRow]

/-- Witness for C3: the provider emits "Hello" and " world" and
completes against an empty one-conversation store. -/
theorem c3_relay_success_witness :
    relayRun ⟨[⟨1, "t", none, none, 0, 0⟩], [], 7, 4⟩ 1
        ⟨["Hello", " world"], ProviderOutcome.completed⟩ false
      = ([Frame.chunk "Hello", Frame.chunk " world", Frame.done true],
         { (⟨[⟨1, "t", none, none, 0, 0⟩], [], 7, 4⟩ : Store) with
            messages := [] ++ [⟨7, 1, "assistant", String.join ["Hello", " world"], 4⟩],
            nextId := 7 + 1 }) :=
  c3_relay_success ⟨[⟨1, "t", none, none, 0, 0⟩], [], 7, 4⟩ 1
    ⟨["Hello", " world"], ProviderOutcome.completed⟩ rfl

/-- C5: when the provider stream fails before completion, the client
receives the chunks forwarded so far followed by the terminal error
frame, and the store is untouched — in particular no assistant message,
partial or otherwise, is persisted. -/
theorem c5_relay_upstream_error (s : Store) (cid : Nat) (p : ProviderStream)
    (sf : Bool) (msg : String) (h : p.outcome = ProviderOutcome.failed msg) :
    relayRun s cid p sf
      = (p.emitted.map Frame.chunk ++ [Frame.errorFrame "Failed to save response"], s) := by
  unfold relayRun
  rw [h]

/-- Witness for C5: one chunk, then an upstream error. -/
theorem c5_relay_upstream_error_witness :
    relayRun ⟨[⟨1, "t", none, none, 0, 0⟩], [], 7, 4⟩ 1
        ⟨["Hello"], ProviderOutcome.failed "boom"⟩ false
      = ([Frame.chunk "Hello", Frame.errorFrame "Failed to save response"],
         ⟨[⟨1, "t", none, none, 0, 0⟩], [], 7, 4⟩) :=
  c5_relay_upstream_error ⟨[⟨1, "t", none, none, 0, 0⟩], [], 7, 4⟩ 1
    ⟨["Hello"], ProviderOutcome.failed "boom"⟩ false "boom" rfl

/-- C6 counterexample: after a successful generation whose save fails,
the terminal frame the client gets is byte-identical to the terminal
frame of a generation failure — the relay does not report the save
failure distinctly from a generation failure. -/
theorem c6_save_failure_frame_counterexample :
    (relayRun ⟨[⟨1, "t", none, none, 0, 0⟩], [], 7, 4⟩ 1
        ⟨["Hello"], ProviderOutcome.completed⟩ true).1.getLast?
      = (relayRun ⟨[⟨1, "t", none, none, 0, 0⟩], [], 7, 4⟩ 1
        ⟨["Hello"], ProviderOutcome.failed "upstream error"⟩ false).1.getLast?
    ∧ (relayRun ⟨[⟨1, "t", none, none, 0, 0⟩], [], 7, 4⟩ 1
        ⟨["Hello"], ProviderOutcome.completed⟩ true).1.getLast?
      ≠ some (Frame.done true) := by
  constructor
  · rfl
  · decide

/-- C6 amended: when generation completes but the save fails the client
has already received every chunk and gets exactly one terminal frame,
which is not the done frame — but it is the very frame a generation
failure produces, so the two failures are not distinguishable. -/
theorem c6_amended_relay_save_failure (s : Store) (cid : Nat) (p : ProviderStream)
    (h : p.outcome = ProviderOutcome.completed) :
    relayRun s cid p true
      = (p.emitted.map Frame.chunk ++ [Frame.errorFrame "Failed to save response"], s)
    ∧ Frame.errorFrame "Failed to save response" ≠ Frame.done true
    ∧ ∀ (msg : String) (sf : Bool),
        (relayRun s cid ⟨p.emitted, ProviderOutcome.failed msg⟩ sf).1
          = (relayRun s cid p true).1 := by
  refine ⟨?_, by simp, ?_⟩
  · unfold relayRun
    rw [h]
    simp
  · intro msg sf
    unfold relayRun
    rw [h]
    simp

/-- Witness for the amended C6 at a concrete run. -/
theorem c6_amended_relay_save_failure_witness :
    relayRun ⟨[⟨1, "t", none, none, 0, 0⟩], [], 8, 4⟩ 1
        ⟨["Hi"], ProviderOutcome.completed⟩ true
      = ([Frame.chunk "Hi", Frame.errorFrame "Failed to save response"],
         ⟨[⟨1, "t", none, none, 0, 0⟩], [], 8, 4⟩)
    ∧ Frame.errorFrame "Failed to save response" ≠ Frame.done true :=
  ⟨(c6_amended_relay_save_failure ⟨[⟨1, "t", none, none, 0, 0⟩], [], 8, 4⟩ 1
      ⟨["Hi"], ProviderOutcome.completed⟩ rfl).1,
   (c6_amended_relay_save_failure ⟨[⟨1, "t", none, none, 0, 0⟩], [], 8, 4⟩ 1
      ⟨["Hi"], ProviderOutcome.completed⟩ rfl).2.1⟩

/-- The fork row used in the C9 stores. -/
def fork9 : Conversation := ⟨2, "Story (branch)", some 1, some 10, 2, 2⟩

/-- A parent conversation (id 1, one message) with a fork (id 2) that
carries both lineage links and one copied message. -/
def store9 : Store :=
  ⟨[⟨1, "Story", none, none, 1, 1⟩, fork9],
   [⟨10, 1, "user", "hi", 1⟩, ⟨11, 2, "user", "hi", 1⟩], 30, 9⟩

/-- C9 counterexample: deleting the parent does not leave the fork's row
unchanged except for a nulled parentConversationId — the fork's
branchFromMessageId is nulled as well, because the parent's messages are
cascade-deleted and the branch_from_message_id foreign key is SET NULL. -/
theorem c9_delete_parent_counterexample :
    (deleteConversationRows store9 1).conversations.find? (fun c => c.id == 2)
        ≠ some { fork9 with parentConversationId := none }
    ∧ (deleteConversationRows store9 1).conversations.find? (fun c => c.id == 2)
        = some { fork9 with parentConversationId := none, branchFromMessageId := none } := by
  constructor
  · decide
  · decide

/-- Dropping the deleted conversation's rows does not disturb another
conversation's rows. -/
theorem filter_conv_of_ne (d fid : Nat) (hne : fid ≠ d) :
    ∀ l : List Message,
      (l.filter (fun m => m.conversationId != d)).filter (fun m => m.conversationId == fid)
        = l.filter (fun m => m.conversationId == fid) := by
  intro l
  induction l with
  | nil => rfl
  | cons m l ih =>
    by_cases hd2 : m.conversationId = d
    · have h1 : (m.conversationId != d) = false := by
        rw [hd2]
        simp
      have h2 : (m.conversationId == fid) = false := by
        rw [hd2]
        simp
        exact fun h => hne h.symm
      simp [List.filter_cons, h1, h2, ih]
    · have h1 : (m.conversationId != d) = true := bne_iff_ne.mpr hd2
      simp [List.filter_cons, h1, ih]

/-- C9 amended: deleting a conversation removes its own row and its own
messages; a fork of it survives with all of its copied messages
untouched, its parentConversationId nulled, and its branchFromMessageId
nulled exactly when it referenced one of the deleted conversation's
(cascade-deleted) messages. -/
theorem c9_amended_delete_parent (s : Store) (d : Nat) (F : Conversation)
    (hex : s.conversations.any (fun c => c.id == d) = true)
    (hF : F ∈ s.conversations)
    (hpar : F.parentConversationId = some d)
    (hne : F.id ≠ d) :
    deleteConversation s d = Except.ok (deleteConversationRows s d)
    ∧ ({ F with
          parentConversationId := none,
          branchFromMessageId :=
            match F.branchFromMessageId with
            | some m =>
              if ((s.messages.filter (fun x => x.conversationId == d)).map
                    Message.id).contains m
              then none else some m
            | none => none } : Conversation)
        ∈ (deleteConversationRows s d).conversations
    ∧ (deleteConversationRows s d).messages.filter (fun m => m.conversationId == F.id)
        = s.messages.filter (fun m => m.conversationId == F.id) := by
  refine ⟨?_, ?_, ?_⟩
  · unfold deleteConversation
    rw [if_pos hex]
  · have hFf : F ∈ s.conversations.filter (fun c => c.id != d) :=
      List.mem_filter.mpr ⟨hF, bne_iff_ne.mpr hne⟩
    unfold deleteConversationRows
    refine List.mem_map.mpr ⟨F, hFf, ?_⟩
    simp [hpar]
  · unfold deleteConversationRows
    exact filter_conv_of_ne d F.id hne s.messages

/-- Witness for the amended C9: deleting the parent in the concrete
two-conversation store. -/
theorem c9_amended_delete_parent_witness :
    deleteConversation store9 1 = Except.ok (deleteConversationRows store9 1)
    ∧ (⟨2, "Story (branch)", none, none, 2, 2⟩ : Conversation)
        ∈ (deleteConversationRows store9 1).conversations
    ∧ (deleteConversationRows store9 1).messages.filter (fun m => m.conversationId == 2)
        = store9.messages.filter (fun m => m.conversationId == 2) :=
  c9_amended_delete_parent store9 1 fork9 (by decide) (by decide) rfl (by decide)

/-- After the user append, the appended row is in the history that is
read back, and it is still in the log after the relay runs, whatever the
provider does. -/
theorem sendPOST_user_core (s1 : Store) (cid : Nat) (content : String)
    (p : ProviderStream) (sf : Bool) :
    mkMessageRow s1 cid "user" content
      ∈ findMessagesByConversationId (insertMessage s1 cid "user" content).2 cid
    ∧ mkMessageRow s1 cid "user" content
      ∈ (relayRun (insertMessage s1 cid "user" content).2 cid p sf).2.messages := by
  have hmem : mkMessageRow s1 cid "user" content
      ∈ (insertMessage s1 cid "user" content).2.messages := by
    simp [insertMessage]
  constructor
  · exact mem_findMessagesByConversationId _ _ _ hmem rfl
  · obtain ⟨tail, ht⟩ := relayRun_messages (insertMessage s1 cid "user" content).2 cid p sf
    rw [ht]
    exact List.mem_append.mpr (Or.inl hmem)

/-- C10: every send request appends the user message to the store before
the provider is contacted — the history handed to the provider already
contains it — and the user message is still persisted afterwards,
whether generation and saving succeed or fail. -/
theorem c10_user_message_first (s : Store) (cido : Option Nat) (content : String)
    (provider : List Message → ProviderStream) (sf : Bool) :
    ∃ m : Message, m.role = "user" ∧ m.content = content
      ∧ m ∈ (sendPOST s cido content provider sf).historySent
      ∧ m ∈ (sendPOST s cido content provider sf).store.messages := by
  cases cido with
  | some c =>
    refine ⟨mkMessageRow s c "user" content, rfl, rfl, ?_, ?_⟩
    · exact (sendPOST_user_core s c content
        (provider (findMessagesByConversationId (insertMessage s c "user" content).2 c)) sf).1
    · exact (sendPOST_user_core s c content
        (provider (findMessagesByConversationId (insertMessage s c "user" content).2 c)) sf).2
  | none =>
    refine ⟨mkMessageRow
        (insertConversation s (generateTitleFromMessage content) none none).2
        (insertConversation s (generateTitleFromMessage content) none none).1.id
        "user" content, rfl, rfl, ?_, ?_⟩
    · exact (sendPOST_user_core
        (insertConversation s (generateTitleFromMessage content) none none).2
        (insertConversation s (generateTitleFromMessage content) none none).1.id content
        (provider (findMessagesByConversationId
          (insertMessage (insertConversation s (generateTitleFromMessage content) none none).2
            (insertConversation s (generateTitleFromMessage content) none none).1.id
            "user" content).2
          (insertConversation s (generateTitleFromMessage content) none none).1.id)) sf).1
    · exact (sendPOST_user_core
        (insertConversation s (generateTitleFromMessage content) none none).2
        (insertConversation s (generateTitleFromMessage content) none none).1.id content
        (provider (findMessagesByConversationId
          (insertMessage (insertConversation s (generateTitleFromMessage content) none none).2
            (insertConversation s (generateTitleFromMessage content) none none).1.id
            "user" content).2
          (insertConversation s (generateTitleFromMessage content) none none).1.id)) sf).2
